import Mathlib

/-!
Verification of the DNG patcher (tiff_to_dng.py) against its design spec.

The Python source is shallowly embedded: pixel grids are lists of `Nat`
samples, files are lists of `Nat` bytes, numpy uint16 casts are `% 65536`,
and the bit manipulations of the 14-bit codec keep the shift/mask
structure (`<<<`, `>>>`, `&&&`, `|||`).
-/

set_option maxHeartbeats 1000000
set_option maxRecDepth 8000

namespace DngEditor

/-! ## Pixel codec (pack_14bit_data, tiff_to_dng.py lines 62-100) -/

/-- One 4-sample group of pack_14bit_data (lines 87-98).  The numpy
astype(uint16) cast is the mod-65536 reduction. -/
def packGroup (p0 p1 p2 p3 : Nat) : List Nat :=
  let q0 := p0 % 65536
  let q1 := p1 % 65536
  let q2 := p2 % 65536
  let q3 := p3 % 65536
  [(q0 >>> 6) &&& 255,
   ((q0 &&& 63) <<< 2) ||| ((q1 >>> 12) &&& 3),
   (q1 >>> 4) &&& 255,
   ((q1 &&& 15) <<< 4) ||| ((q2 >>> 10) &&& 15),
   (q2 >>> 2) &&& 255,
   ((q2 &&& 3) <<< 6) ||| ((q3 >>> 8) &&& 63),
   q3 &&& 255]

/-- pack_14bit_data on the flattened sample list: groups of 4 samples become
7 bytes, a final short group is zero-padded (lines 73-100). -/
def pack_14bit_data : List Nat → List Nat
  | [] => []
  | [p0] => packGroup p0 0 0 0
  | [p0, p1] => packGroup p0 p1 0 0
  | [p0, p1, p2] => packGroup p0 p1 p2 0
  | p0 :: p1 :: p2 :: p3 :: rest => packGroup p0 p1 p2 p3 ++ pack_14bit_data rest

/-- The unpack formula stated in the pack_14bit_data docstring (lines 67-71),
applied to each 7-byte group. -/
def unpack14 : List Nat → List Nat
  | b0 :: b1 :: b2 :: b3 :: b4 :: b5 :: b6 :: rest =>
      ((b0 <<< 6) ||| ((b1 >>> 2) &&& 63)) ::
      ((((b1 &&& 3) <<< 12) ||| (b2 <<< 4)) ||| ((b3 >>> 4) &&& 15)) ::
      ((((b3 &&& 15) <<< 10) ||| (b4 <<< 2)) ||| ((b5 >>> 6) &&& 3)) ::
      (((b5 &&& 63) <<< 8) ||| b6) :: unpack14 rest
  | _ => []

/-- The bit-range notation of the spec: bits hi..lo of x, hi and lo
inclusive. -/
def bitsOf (x hi lo : Nat) : Nat := (x >>> lo) % 2 ^ (hi - lo + 1)

/-! ## Byte-file primitives

A file is a list of byte values.  The patcher only ever runs on
little-endian containers in the scenarios the claims quantify over; the
big-endian case uses the mirrored byte order on both the write and the
read side and is symmetric. -/

/-- struct.pack of an unsigned 16-bit little-endian value. -/
def le16 (v : Nat) : List Nat := [v % 256, v / 256 % 256]

/-- struct.pack of an unsigned 32-bit little-endian value (struct.pack
raises for values of 2^32 and above; all theorems below keep their values
inside that range). -/
def le32 (v : Nat) : List Nat :=
  [v % 256, v / 256 % 256, v / 65536 % 256, v / 16777216 % 256]

/-- seek + write on an open r+b file.  All the tag value positions the
patcher writes to lie strictly inside the existing file, so the overwrite
never grows the file; theorems carry that in-range hypothesis. -/
def writeBytesAt (f : List Nat) (pos : Nat) (bs : List Nat) : List Nat :=
  f.take pos ++ bs ++ f.drop (pos + bs.length)

/-- Read back a 16-bit little-endian value at a byte position. -/
def readLe16 (f : List Nat) (pos : Nat) : Nat :=
  f.getD pos 0 + 256 * f.getD (pos + 1) 0

/-- Read back a 32-bit little-endian value at a byte position. -/
def readLe32 (f : List Nat) (pos : Nat) : Nat :=
  f.getD pos 0 + 256 * f.getD (pos + 1) 0 + 65536 * f.getD (pos + 2) 0 +
    16777216 * f.getD (pos + 3) 0

/-- Reading a tag value field: SHORT (type 3) reads 2 bytes, anything else
is read as a LONG, exactly as the source branches on data_type == 3. -/
def readTag (f : List Nat) (pos dt : Nat) : Nat :=
  if dt = 3 then readLe16 f pos else readLe32 f pos

/-! ## Patch Writer (modify_dng_pixels, lines 684-715) -/

/-- One tag value overwrite: a SHORT field receives the value masked to 16
bits (the source writes value & 0xFFFF), any other field type is written
as a LONG. -/
def tagWrite (f : List Nat) (p dt v : Nat) : List Nat :=
  if dt = 3 then writeBytesAt f p (le16 (v &&& 65535))
  else writeBytesAt f p (le32 v)

/-- The Patch Writer tail of modify_dng_pixels (lines 684-715): append the
encoded payload at end of file, then overwrite StripOffsets,
StripByteCounts and — only when the parsed compression was not 1 —
Compression, each at its previously recorded value position. -/
def patchWriteback (f : List Nat) (sotPos : Option Nat) (sotDt : Nat)
    (sbcPos : Option Nat) (sbcDt : Nat) (compPos : Option Nat) (compDt : Nat)
    (compression : Nat) (pixelBytes : List Nat) : List Nat :=
  let newStripOffset := f.length
  let f1 := f ++ pixelBytes
  let f2 := match sotPos with
    | none => f1
    | some p => tagWrite f1 p sotDt newStripOffset
  let f3 := match sbcPos with
    | none => f2
    | some p => tagWrite f2 p sbcDt pixelBytes.length
  match compPos with
  | none => f3
  | some p =>
      if compression ≠ 1 then
        if compDt = 3 then writeBytesAt f3 p (le16 1)
        else writeBytesAt f3 p (le32 1)
      else f3

/-! ## Pixel codec selection (modify_dng_pixels, lines 663-682) -/

/-- numpy astype(uint16).tobytes(): two little-endian bytes per sample. -/
def encode16 (data : List Nat) : List Nat := data.flatMap (fun p => le16 (p % 65536))

/-- np.clip(sample, 0, 16383) for an unsigned sample. -/
def clip14 (p : Nat) : Nat := min p 16383

/-- The payload encoding choice (lines 663-682); the Bool records whether
the unsupported-bit-depth warning was printed. -/
def encode_pixel_bytes (bits_per_sample : Nat) (data : List Nat) : List Nat × Bool :=
  if bits_per_sample = 16 then (encode16 data, false)
  else if bits_per_sample = 14 then (pack_14bit_data (data.map clip14), false)
  else (encode16 data, true)

/-! ## Raw-IFD Locator (modify_dng_pixels, lines 415-540) -/

/-- Expected raw payload size (lines 501-507): size * 2 for 16-bit,
size * 14 // 8 for every other accepted depth. -/
def expected_raw_bytes (bits size : Nat) : Nat :=
  if bits = 16 then size * 2 else size * 14 / 8

/-- Main-IFD raw classification (lines 496-511).  `none` models an absent
tag; Python truthiness makes a 0 tag value falsy, hence the explicit
non-zero tests.  The float comparison sb >= expected * 0.8 is modelled
exactly as 5 * sb >= 4 * expected. -/
def is_raw_data (main_samples main_bits main_strip_bytes : Option Nat)
    (size : Nat) : Bool :=
  match main_bits with
  | some b =>
      if main_samples = some 1 ∧ b ≠ 0 ∧ 12 ≤ b ∧ b ≤ 16 then
        match main_strip_bytes with
        | some sb => decide (sb ≠ 0 ∧ 5 * sb ≥ 4 * expected_raw_bytes b size)
        | none => false
      else false
  | none => false

/-- The classification claimed in the spec sentence: the 80% threshold is
taken of the theoretical byte size for the actual bit depth,
size * bits / 8.  The comparison sb >= (size * bits / 8) * 0.8 is modelled
exactly as 10 * sb >= size * bits. -/
def claimed_raw_check (samples bits sb size : Nat) : Bool :=
  decide (samples = 1 ∧ 12 ≤ bits ∧ bits ≤ 16 ∧ 10 * sb ≥ size * bits)

/-- The entry scan of the SubIFD validation (lines 444-452): two flags set
while walking the entry tags in file order. -/
def scanStripFlags : List Nat → Bool → Bool → Bool × Bool
  | [], so, sbc => (so, sbc)
  | t :: rest, so, sbc =>
      if t = 273 then scanStripFlags rest true sbc
      else if t = 279 then scanStripFlags rest so true
      else scanStripFlags rest so sbc

/-- SubIFD validation (lines 436-457): a sane entry count, then a scan of
the first min(numEntries, 100) entries for StripOffsets (273) and
StripByteCounts (279). -/
def subifd_check (numEntries : Nat) (tags : List Nat) : Bool :=
  if 0 < numEntries ∧ numEntries < 1000 then
    let fs := scanStripFlags (tags.take (min numEntries 100)) false false
    fs.1 && fs.2
  else false

/-- Which IFD the locator decides to patch. -/
inductive IFDTarget
  | subIFD
  | mainRaw
  | mainFallback
  | synthesize
deriving DecidableEq

/-- Steps 2-4 of the locator (lines 461-540), reached when the SubIFD check
did not select a target: the raw heuristic, then — for a non-zero next-IFD
pointer — the main IFD is kept as the target (lines 526-534); only a zero
next-IFD pointer hands off to the synthesizer (line 540). -/
def locate_main (samples bits stripBytes : Option Nat) (size nextIFD : Nat) : IFDTarget :=
  if is_raw_data samples bits stripBytes size then IFDTarget.mainRaw
  else if nextIFD ≠ 0 then IFDTarget.mainFallback
  else IFDTarget.synthesize

/-- The full locator chain (lines 415-540).  The SubIFD candidate is
`some (entryCount, entryTags)` when tag 330 is present with a non-zero
first value and the candidate header could be read. -/
def locate_target (subifd : Option (Nat × List Nat))
    (samples bits stripBytes : Option Nat) (size nextIFD : Nat) : IFDTarget :=
  match subifd with
  | some (n, tags) =>
      if subifd_check n tags then IFDTarget.subIFD
      else locate_main samples bits stripBytes size nextIFD
  | none => locate_main samples bits stripBytes size nextIFD

/-! ## SubIFD Synthesizer (create_uncompressed_dng_from_rawpy, lines 318-384) -/

/-- The bytes the source actually writes for its pad-to-4-bytes comment:
the bytes literal contains two escaped backslashes, so it holds the eight
ASCII characters backslash, x, 0, 0, backslash, x, 0, 0 — not two zero
bytes. -/
def pad8 : List Nat := [92, 120, 48, 48, 92, 120, 48, 48]

/-- A synthesized entry carrying a LONG value (type 4, count 1). -/
def entryLong (tag val : Nat) : List Nat := le16 tag ++ le16 4 ++ le32 1 ++ le32 val

/-- A synthesized entry carrying a SHORT value (type 3, count 1) followed
by the padding write of lines 337/343/349/360. -/
def entryShortPad (tag val : Nat) : List Nat :=
  le16 tag ++ le16 3 ++ le32 1 ++ le16 val ++ pad8

/-- The SubIFD the synthesizer emits at end of file (lines 318-379): entry
count, the nine base entries in tag order, the copied DNG tags (tag, type,
count, raw 4-byte value field), then the zero next-IFD pointer. -/
def synthIFD (width height newStripOffset payloadLen : Nat)
    (dngTags : List (Nat × Nat × Nat × List Nat)) : List Nat :=
  le16 (9 + dngTags.length) ++
  entryLong 256 width ++
  entryLong 257 height ++
  entryShortPad 258 16 ++
  entryShortPad 259 1 ++
  entryShortPad 262 32803 ++
  entryLong 273 newStripOffset ++
  entryShortPad 277 1 ++
  entryLong 278 height ++
  entryLong 279 payloadLen ++
  (dngTags.flatMap fun e => le16 e.1 ++ le16 e.2.1 ++ le32 e.2.2.1 ++ e.2.2.2) ++
  le32 0

/-- The byte length an IFD must have under the TIFF layout the spec
states: a 2-byte count, 12 bytes per entry, a 4-byte next-IFD pointer. -/
def tiff_ifd_size (entryCount : Nat) : Nat := 2 + 12 * entryCount + 4

/-! ## tiff_to_dng driver (lines 12-58) -/

/-- An image shape (rows, cols). -/
structure Shape where
  rows : Nat
  cols : Nat
deriving DecidableEq

/-- tiff_to_dng modelled up to its file effects: the shape comparison
(line 49) happens before the template copy (line 54) and the pixel patch
(line 58); on mismatch a ValueError aborts and the output file keeps its
prior state out0.  patched abstracts the content produced by the copy and
patch steps. -/
def tiff_to_dng (tiffShape origShape : Shape) (out0 : Option (List Nat))
    (patched : List Nat) : Except String Unit × Option (List Nat) :=
  if tiffShape ≠ origShape then (Except.error "dimension mismatch", out0)
  else (Except.ok (), some patched)

/-! ## The mutual recursion between modify_dng_pixels and
create_uncompressed_dng_from_rawpy -/

/-- The container features both functions read back from the file.  On the
synthesize branch (line 540) modify_dng_pixels calls
create_uncompressed_dng_from_rawpy on the original file, which re-copies
the original over the output (line 124) before re-reading it, so each
round observes the same features. -/
structure ContainerInfo where
  subifd : Option (Nat × List Nat)
  samples : Option Nat
  bits : Option Nat
  stripBytes : Option Nat
  nextIFD : Nat

/-- Whether a nested call chain came back, with fuel bounding the nesting
depth (the Python recursion limit). -/
inductive PatchOutcome
  | done
  | outOfFuel
deriving DecidableEq

mutual

/-- modify_dng_pixels viewed as a transition: any located target leads to a
patch and return; the synthesize branch calls
create_uncompressed_dng_from_rawpy (line 540). -/
def modify_run (orig : ContainerInfo) (size : Nat) : Nat → PatchOutcome
  | 0 => PatchOutcome.outOfFuel
  | fuel + 1 =>
      match locate_target orig.subifd orig.samples orig.bits orig.stripBytes
          size orig.nextIFD with
      | IFDTarget.synthesize => create_run orig size fuel
      | _ => PatchOutcome.done

/-- create_uncompressed_dng_from_rawpy: the preview branch
(SamplesPerPixel == 3, line 191) terminates; every other container falls
through to the standard method, calling modify_dng_pixels again
(line 387). -/
def create_run (orig : ContainerInfo) (size : Nat) : Nat → PatchOutcome
  | 0 => PatchOutcome.outOfFuel
  | fuel + 1 =>
      if orig.samples = some 3 then PatchOutcome.done
      else modify_run orig size fuel

end

end DngEditor

namespace DngEditor

/-! ## Bitwise helper lemmas -/

theorem land255 (x : Nat) : x &&& 255 = x % 256 := by
  have h := Nat.and_pow_two_sub_one_eq_mod x 8
  norm_num at h
  exact h

theorem land63 (x : Nat) : x &&& 63 = x % 64 := by
  have h := Nat.and_pow_two_sub_one_eq_mod x 6
  norm_num at h
  exact h

theorem land15 (x : Nat) : x &&& 15 = x % 16 := by
  have h := Nat.and_pow_two_sub_one_eq_mod x 4
  norm_num at h
  exact h

theorem land3 (x : Nat) : x &&& 3 = x % 4 := by
  have h := Nat.and_pow_two_sub_one_eq_mod x 2
  norm_num at h
  exact h

theorem land65535 (x : Nat) : x &&& 65535 = x % 65536 := by
  have h := Nat.and_pow_two_sub_one_eq_mod x 16
  norm_num at h
  exact h

/-- A bitwise or of values occupying disjoint bit ranges is an addition. -/
theorem lor_eq_add_pow (k a b : Nat) (hb : b < 2 ^ k) (ha : a % 2 ^ k = 0) :
    a ||| b = a + b := by
  obtain ⟨c, hc⟩ := Nat.dvd_of_mod_eq_zero ha
  subst hc
  exact (Nat.mul_add_lt_is_or hb c).symm

/-! ## Round-trip of the 14-bit codec -/

/-- Extracting sample 0 back out of bytes 0 and 1. -/
theorem rec0 (q0 t : Nat) (hq : q0 < 16384) (ht : t < 4) :
    (((q0 >>> 6) &&& 255) <<< 6) ||| (((((q0 &&& 63) <<< 2) ||| t) >>> 2) &&& 63)
      = q0 := by
  simp only [Nat.shiftLeft_eq, Nat.shiftRight_eq_div_pow, land255, land63]
  rw [lor_eq_add_pow 2 (q0 % 64 * 2 ^ 2) t (by omega) (by omega)]
  have h1 : (q0 % 64 * 2 ^ 2 + t) / 2 ^ 2 % 64 = q0 % 64 := by omega
  rw [h1]
  rw [lor_eq_add_pow 6 (q0 / 2 ^ 6 % 256 * 2 ^ 6) (q0 % 64) (by omega) (by omega)]
  omega

/-- Extracting sample 1 back out of bytes 1, 2 and 3. -/
theorem rec1 (q1 l0 h2 : Nat) (hq : q1 < 16384) (hl0 : l0 < 64) (hh2 : h2 < 16) :
    (((((l0 <<< 2) ||| ((q1 >>> 12) &&& 3)) &&& 3) <<< 12)
        ||| (((q1 >>> 4) &&& 255) <<< 4))
      ||| (((((q1 &&& 15) <<< 4) ||| h2) >>> 4) &&& 15) = q1 := by
  simp only [Nat.shiftLeft_eq, Nat.shiftRight_eq_div_pow, land255, land63, land15, land3]
  rw [lor_eq_add_pow 2 (l0 * 2 ^ 2) (q1 / 2 ^ 12 % 4) (by omega) (by omega)]
  have h1 : (l0 * 2 ^ 2 + q1 / 2 ^ 12 % 4) % 4 = q1 / 2 ^ 12 % 4 := by omega
  rw [h1]
  rw [lor_eq_add_pow 4 (q1 % 16 * 2 ^ 4) h2 (by omega) (by omega)]
  have h2a : (q1 % 16 * 2 ^ 4 + h2) / 2 ^ 4 % 16 = q1 % 16 := by omega
  rw [h2a]
  rw [lor_eq_add_pow 12 (q1 / 2 ^ 12 % 4 * 2 ^ 12) (q1 / 2 ^ 4 % 256 * 2 ^ 4)
    (by omega) (by omega)]
  rw [lor_eq_add_pow 4 (q1 / 2 ^ 12 % 4 * 2 ^ 12 + q1 / 2 ^ 4 % 256 * 2 ^ 4) (q1 % 16)
    (by omega) (by omega)]
  omega

/-- Extracting sample 2 back out of bytes 3, 4 and 5. -/
theorem rec2 (q2 l1 h3 : Nat) (hq : q2 < 16384) (hl1 : l1 < 16) (hh3 : h3 < 64) :
    (((((l1 <<< 4) ||| ((q2 >>> 10) &&& 15)) &&& 15) <<< 10)
        ||| (((q2 >>> 2) &&& 255) <<< 2))
      ||| (((((q2 &&& 3) <<< 6) ||| h3) >>> 6) &&& 3) = q2 := by
  simp only [Nat.shiftLeft_eq, Nat.shiftRight_eq_div_pow, land255, land63, land15, land3]
  rw [lor_eq_add_pow 4 (l1 * 2 ^ 4) (q2 / 2 ^ 10 % 16) (by omega) (by omega)]
  have h1 : (l1 * 2 ^ 4 + q2 / 2 ^ 10 % 16) % 16 = q2 / 2 ^ 10 % 16 := by omega
  rw [h1]
  rw [lor_eq_add_pow 6 (q2 % 4 * 2 ^ 6) h3 (by omega) (by omega)]
  have h2a : (q2 % 4 * 2 ^ 6 + h3) / 2 ^ 6 % 4 = q2 % 4 := by omega
  rw [h2a]
  rw [lor_eq_add_pow 10 (q2 / 2 ^ 10 % 16 * 2 ^ 10) (q2 / 2 ^ 2 % 256 * 2 ^ 2)
    (by omega) (by omega)]
  rw [lor_eq_add_pow 2 (q2 / 2 ^ 10 % 16 * 2 ^ 10 + q2 / 2 ^ 2 % 256 * 2 ^ 2) (q2 % 4)
    (by omega) (by omega)]
  omega

/-- Extracting sample 3 back out of bytes 5 and 6. -/
theorem rec3 (q3 l2 : Nat) (hq : q3 < 16384) (hl2 : l2 < 4) :
    ((((l2 <<< 6) ||| ((q3 >>> 8) &&& 63)) &&& 63) <<< 8) ||| (q3 &&& 255) = q3 := by
  simp only [Nat.shiftLeft_eq, Nat.shiftRight_eq_div_pow, land255, land63]
  rw [lor_eq_add_pow 6 (l2 * 2 ^ 6) (q3 / 2 ^ 8 % 64) (by omega) (by omega)]
  have h1 : (l2 * 2 ^ 6 + q3 / 2 ^ 8 % 64) % 64 = q3 / 2 ^ 8 % 64 := by omega
  rw [h1]
  rw [lor_eq_add_pow 8 (q3 / 2 ^ 8 % 64 * 2 ^ 8) (q3 % 256) (by omega) (by omega)]
  omega

/-- Unpacking one packed group prepended to further bytes recovers the four
samples followed by the unpacking of the rest. -/
theorem unpack14_packGroup_append (p0 p1 p2 p3 : Nat) (rest : List Nat)
    (h0 : p0 ≤ 16383) (h1 : p1 ≤ 16383) (h2 : p2 ≤ 16383) (h3 : p3 ≤ 16383) :
    unpack14 (packGroup p0 p1 p2 p3 ++ rest) = p0 :: p1 :: p2 :: p3 :: unpack14 rest := by
  have e0 : p0 % 65536 = p0 := Nat.mod_eq_of_lt (by omega)
  have e1 : p1 % 65536 = p1 := Nat.mod_eq_of_lt (by omega)
  have e2 : p2 % 65536 = p2 := Nat.mod_eq_of_lt (by omega)
  have e3 : p3 % 65536 = p3 := Nat.mod_eq_of_lt (by omega)
  simp only [packGroup, e0, e1, e2, e3, List.cons_append, List.nil_append, unpack14,
    List.cons.injEq]
  refine ⟨?_, ?_, ?_, ⟨?_, rfl⟩⟩
  · exact rec0 p0 ((p1 >>> 12) &&& 3) (by omega) (by rw [land3]; omega)
  · exact rec1 p1 (p0 &&& 63) ((p2 >>> 10) &&& 15) (by omega)
      (by rw [land63]; omega) (by rw [land15]; omega)
  · exact rec2 p2 (p1 &&& 15) ((p3 >>> 8) &&& 63) (by omega)
      (by rw [land15]; omega) (by rw [land63]; omega)
  · exact rec3 p3 (p2 &&& 3) (by omega) (by rw [land3]; omega)

/-- C1: unpacking (by the docstring formula) the result of pack_14bit_data on
any grid of samples in [0, 16383] yields the original samples followed by the
zeros padding the final group when the sample count is not a multiple of 4. -/
theorem unpack14_pack_14bit_data : ∀ (xs : List Nat), (∀ x ∈ xs, x ≤ 16383) →
    unpack14 (pack_14bit_data xs) = xs ++ List.replicate ((4 - xs.length % 4) % 4) 0
  | [], _ => by simp [pack_14bit_data, unpack14]
  | [p0], h => by
      have h0 : p0 ≤ 16383 := h p0 (by simp)
      have key := unpack14_packGroup_append p0 0 0 0 [] h0 (by omega) (by omega) (by omega)
      rw [List.append_nil] at key
      simpa [pack_14bit_data, unpack14, List.replicate] using key
  | [p0, p1], h => by
      have h0 : p0 ≤ 16383 := h p0 (by simp)
      have h1 : p1 ≤ 16383 := h p1 (by simp)
      have key := unpack14_packGroup_append p0 p1 0 0 [] h0 h1 (by omega) (by omega)
      rw [List.append_nil] at key
      simpa [pack_14bit_data, unpack14, List.replicate] using key
  | [p0, p1, p2], h => by
      have h0 : p0 ≤ 16383 := h p0 (by simp)
      have h1 : p1 ≤ 16383 := h p1 (by simp)
      have h2 : p2 ≤ 16383 := h p2 (by simp)
      have key := unpack14_packGroup_append p0 p1 p2 0 [] h0 h1 h2 (by omega)
      rw [List.append_nil] at key
      simpa [pack_14bit_data, unpack14, List.replicate] using key
  | p0 :: p1 :: p2 :: p3 :: rest, h => by
      have ih := unpack14_pack_14bit_data rest (fun x hx => h x (by simp [hx]))
      have h0 : p0 ≤ 16383 := h p0 (by simp)
      have h1 : p1 ≤ 16383 := h p1 (by simp)
      have h2 : p2 ≤ 16383 := h p2 (by simp)
      have h3 : p3 ≤ 16383 := h p3 (by simp)
      have hlen : (4 - (p0 :: p1 :: p2 :: p3 :: rest).length % 4) % 4
          = (4 - rest.length % 4) % 4 := by
        simp only [List.length_cons]
        omega
      rw [hlen]
      calc unpack14 (pack_14bit_data (p0 :: p1 :: p2 :: p3 :: rest))
          = unpack14 (packGroup p0 p1 p2 p3 ++ pack_14bit_data rest) := by
            rw [pack_14bit_data]
        _ = p0 :: p1 :: p2 :: p3 :: unpack14 (pack_14bit_data rest) :=
            unpack14_packGroup_append p0 p1 p2 p3 _ h0 h1 h2 h3
        _ = p0 :: p1 :: p2 :: p3 :: (rest ++ List.replicate ((4 - rest.length % 4) % 4) 0) := by
            rw [ih]
        _ = (p0 :: p1 :: p2 :: p3 :: rest) ++ List.replicate ((4 - rest.length % 4) % 4) 0 := by
            simp

/-- C1 witness: a concrete 3-sample grid round-trips, with one zero of tail
padding. -/
theorem unpack14_pack_14bit_data_witness :
    unpack14 (pack_14bit_data [5, 16383, 7]) =
      [5, 16383, 7] ++ List.replicate ((4 - [5, 16383, 7].length % 4) % 4) 0 :=
  unpack14_pack_14bit_data [5, 16383, 7] (by decide)

/-- C3: on a group of four samples of at most 14 bits each, pack_14bit_data
emits exactly the seven bytes prescribed by the spec bit layout. -/
theorem pack_14bit_group_bytes (p0 p1 p2 p3 : Nat)
    (h0 : p0 < 2 ^ 14) (h1 : p1 < 2 ^ 14) (h2 : p2 < 2 ^ 14) (h3 : p3 < 2 ^ 14) :
    pack_14bit_data [p0, p1, p2, p3] =
      [bitsOf p0 13 6,
       bitsOf p0 5 0 * 4 + bitsOf p1 13 12,
       bitsOf p1 11 4,
       bitsOf p1 3 0 * 16 + bitsOf p2 13 10,
       bitsOf p2 9 2,
       bitsOf p2 1 0 * 64 + bitsOf p3 13 8,
       bitsOf p3 7 0] := by
  have e0 : p0 % 65536 = p0 := Nat.mod_eq_of_lt (by omega)
  have e1 : p1 % 65536 = p1 := Nat.mod_eq_of_lt (by omega)
  have e2 : p2 % 65536 = p2 := Nat.mod_eq_of_lt (by omega)
  have e3 : p3 % 65536 = p3 := Nat.mod_eq_of_lt (by omega)
  show packGroup p0 p1 p2 p3 ++ pack_14bit_data [] = _
  simp only [pack_14bit_data, List.append_nil, packGroup, e0, e1, e2, e3, bitsOf,
    Nat.shiftLeft_eq, Nat.shiftRight_eq_div_pow, land255, land63, land15, land3,
    List.cons.injEq]
  rw [lor_eq_add_pow 2 (p0 % 64 * 2 ^ 2) (p1 / 2 ^ 12 % 4) (by omega) (by omega)]
  rw [lor_eq_add_pow 4 (p1 % 16 * 2 ^ 4) (p2 / 2 ^ 10 % 16) (by omega) (by omega)]
  rw [lor_eq_add_pow 6 (p2 % 4 * 2 ^ 6) (p3 / 2 ^ 8 % 64) (by omega) (by omega)]
  refine ⟨by omega, by omega, by omega, by omega, by omega, by omega, by omega, trivial⟩

/-- C3 witness: the packed bytes of a concrete group. -/
theorem pack_14bit_group_bytes_witness :
    pack_14bit_data [1, 2, 3, 16383] =
      [bitsOf 1 13 6, bitsOf 1 5 0 * 4 + bitsOf 2 13 12, bitsOf 2 11 4,
       bitsOf 2 3 0 * 16 + bitsOf 3 13 10, bitsOf 3 9 2,
       bitsOf 3 1 0 * 64 + bitsOf 16383 13 8, bitsOf 16383 7 0] :=
  pack_14bit_group_bytes 1 2 3 16383 (by decide) (by decide) (by decide) (by decide)

/-! ## File read/write lemmas -/

theorem writeBytesAt_length (f bs : List Nat) (pos : Nat)
    (h : pos + bs.length ≤ f.length) :
    (writeBytesAt f pos bs).length = f.length := by
  simp only [writeBytesAt, List.length_append, List.length_take, List.length_drop]
  omega

theorem getD_writeBytesAt_of_lt (f bs : List Nat) (pos i : Nat)
    (hpos : pos ≤ f.length) (hi : i < pos) :
    (writeBytesAt f pos bs).getD i 0 = f.getD i 0 := by
  simp only [writeBytesAt, List.getD_eq_getElem?_getD]
  rw [List.getElem?_append_left (by simp; omega)]
  rw [List.getElem?_append_left (by simp; omega)]
  rw [List.getElem?_take_of_lt hi]

theorem getD_writeBytesAt_of_ge (f bs : List Nat) (pos i : Nat)
    (hpos : pos ≤ f.length) (hi : pos + bs.length ≤ i) :
    (writeBytesAt f pos bs).getD i 0 = f.getD i 0 := by
  simp only [writeBytesAt, List.getD_eq_getElem?_getD]
  rw [List.getElem?_append_right
    (by simp only [List.length_append, List.length_take]; omega)]
  rw [List.getElem?_drop]
  congr 2
  simp only [List.length_append, List.length_take]
  omega

theorem getD_writeBytesAt_mid (f bs : List Nat) (pos i : Nat)
    (hpos : pos ≤ f.length) (hi : i < bs.length) :
    (writeBytesAt f pos bs).getD (pos + i) 0 = bs.getD i 0 := by
  simp only [writeBytesAt, List.getD_eq_getElem?_getD]
  rw [List.getElem?_append_left
    (by simp only [List.length_append, List.length_take]; omega)]
  rw [List.getElem?_append_right (by simp only [List.length_take]; omega)]
  congr 2
  simp only [List.length_take]
  omega

theorem getD_append_left (f g : List Nat) (i : Nat) (h : i < f.length) :
    (f ++ g).getD i 0 = f.getD i 0 := by
  simp only [List.getD_eq_getElem?_getD]
  rw [List.getElem?_append_left h]

theorem readLe16_writeBytesAt_le16 (f : List Nat) (pos v : Nat)
    (h : pos + 2 ≤ f.length) :
    readLe16 (writeBytesAt f pos (le16 v)) pos = v % 65536 := by
  have h0 := getD_writeBytesAt_mid f (le16 v) pos 0 (by omega) (by simp [le16])
  have h1 := getD_writeBytesAt_mid f (le16 v) pos 1 (by omega) (by simp [le16])
  simp only [readLe16, Nat.add_zero] at h0 ⊢
  rw [h0, h1]
  simp only [le16, List.getD]
  simp
  omega

theorem readLe32_writeBytesAt_le32 (f : List Nat) (pos v : Nat)
    (h : pos + 4 ≤ f.length) :
    readLe32 (writeBytesAt f pos (le32 v)) pos = v % 4294967296 := by
  have h0 := getD_writeBytesAt_mid f (le32 v) pos 0 (by omega) (by simp [le32])
  have h1 := getD_writeBytesAt_mid f (le32 v) pos 1 (by omega) (by simp [le32])
  have h2 := getD_writeBytesAt_mid f (le32 v) pos 2 (by omega) (by simp [le32])
  have h3 := getD_writeBytesAt_mid f (le32 v) pos 3 (by omega) (by simp [le32])
  simp only [readLe32, Nat.add_zero] at h0 ⊢
  rw [h0, h1, h2, h3]
  simp only [le32, List.getD]
  simp
  omega

theorem readLe16_writeBytesAt_disjoint (f bs : List Nat) (q p : Nat)
    (hq : q + bs.length ≤ f.length) (hdisj : p + 2 ≤ q ∨ q + bs.length ≤ p) :
    readLe16 (writeBytesAt f q bs) p = readLe16 f p := by
  unfold readLe16
  rcases hdisj with hlt | hge
  · rw [getD_writeBytesAt_of_lt f bs q p (by omega) (by omega),
      getD_writeBytesAt_of_lt f bs q (p + 1) (by omega) (by omega)]
  · rw [getD_writeBytesAt_of_ge f bs q p (by omega) (by omega),
      getD_writeBytesAt_of_ge f bs q (p + 1) (by omega) (by omega)]

theorem readLe32_writeBytesAt_disjoint (f bs : List Nat) (q p : Nat)
    (hq : q + bs.length ≤ f.length) (hdisj : p + 4 ≤ q ∨ q + bs.length ≤ p) :
    readLe32 (writeBytesAt f q bs) p = readLe32 f p := by
  unfold readLe32
  rcases hdisj with hlt | hge
  · rw [getD_writeBytesAt_of_lt f bs q p (by omega) (by omega),
      getD_writeBytesAt_of_lt f bs q (p + 1) (by omega) (by omega),
      getD_writeBytesAt_of_lt f bs q (p + 2) (by omega) (by omega),
      getD_writeBytesAt_of_lt f bs q (p + 3) (by omega) (by omega)]
  · rw [getD_writeBytesAt_of_ge f bs q p (by omega) (by omega),
      getD_writeBytesAt_of_ge f bs q (p + 1) (by omega) (by omega),
      getD_writeBytesAt_of_ge f bs q (p + 2) (by omega) (by omega),
      getD_writeBytesAt_of_ge f bs q (p + 3) (by omega) (by omega)]

theorem readLe16_append (f g : List Nat) (p : Nat) (h : p + 2 ≤ f.length) :
    readLe16 (f ++ g) p = readLe16 f p := by
  unfold readLe16
  rw [getD_append_left f g p (by omega), getD_append_left f g (p + 1) (by omega)]

theorem readLe32_append (f g : List Nat) (p : Nat) (h : p + 4 ≤ f.length) :
    readLe32 (f ++ g) p = readLe32 f p := by
  unfold readLe32
  rw [getD_append_left f g p (by omega), getD_append_left f g (p + 1) (by omega),
    getD_append_left f g (p + 2) (by omega), getD_append_left f g (p + 3) (by omega)]

/-! ## tagWrite lemmas -/

theorem tagWrite_length (f : List Nat) (p dt v : Nat) (h : p + 4 ≤ f.length) :
    (tagWrite f p dt v).length = f.length := by
  unfold tagWrite
  split
  · exact writeBytesAt_length f (le16 (v &&& 65535)) p (by simp [le16]; omega)
  · exact writeBytesAt_length f (le32 v) p (by simp [le32]; omega)

theorem readTag_tagWrite_same (f : List Nat) (p dt v : Nat) (h : p + 4 ≤ f.length) :
    readTag (tagWrite f p dt v) p dt
      = if dt = 3 then v % 65536 else v % 4294967296 := by
  unfold readTag tagWrite
  split
  · rw [readLe16_writeBytesAt_le16 f p (v &&& 65535) (by omega)]
    rw [land65535]
    omega
  · exact readLe32_writeBytesAt_le32 f p v (by omega)

theorem readTag_tagWrite_disjoint (f : List Nat) (q dt2 v p dt : Nat)
    (hq : q + 4 ≤ f.length) (hdisj : p + 4 ≤ q ∨ q + 4 ≤ p) :
    readTag (tagWrite f q dt2 v) p dt = readTag f p dt := by
  unfold readTag tagWrite
  split
  · split
    · exact readLe16_writeBytesAt_disjoint f (le16 (v &&& 65535)) q p
        (by simp [le16]; omega) (by simp [le16]; omega)
    · exact readLe16_writeBytesAt_disjoint f (le32 v) q p
        (by simp [le32]; omega) (by simp [le32]; omega)
  · split
    · exact readLe32_writeBytesAt_disjoint f (le16 (v &&& 65535)) q p
        (by simp [le16]; omega) (by simp [le16]; omega)
    · exact readLe32_writeBytesAt_disjoint f (le32 v) q p
        (by simp [le32]; omega) (by simp [le32]; omega)

theorem readTag_append (f g : List Nat) (p dt : Nat) (h : p + 4 ≤ f.length) :
    readTag (f ++ g) p dt = readTag f p dt := by
  unfold readTag
  split
  · exact readLe16_append f g p (by omega)
  · exact readLe32_append f g p (by omega)

theorem readTag_writeLe_disjoint (f bs : List Nat) (q p dt : Nat)
    (hbs : bs.length ≤ 4) (hq : q + 4 ≤ f.length) (hdisj : p + 4 ≤ q ∨ q + 4 ≤ p) :
    readTag (writeBytesAt f q bs) p dt = readTag f p dt := by
  unfold readTag
  split
  · exact readLe16_writeBytesAt_disjoint f bs q p (by omega) (by omega)
  · exact readLe32_writeBytesAt_disjoint f bs q p (by omega) (by omega)

/-- With the parsed compression already 1, the write-back phase is exactly
the two strip-tag overwrites after the append. -/
theorem patchWriteback_compression_one (f pixelBytes : List Nat)
    (psot sotDt psbc sbcDt pcomp compDt : Nat) :
    patchWriteback f (some psot) sotDt (some psbc) sbcDt (some pcomp) compDt 1 pixelBytes
      = tagWrite (tagWrite (f ++ pixelBytes) psot sotDt f.length)
          psbc sbcDt pixelBytes.length := rfl

/-- Without recorded StripOffsets and Compression positions, the write-back
phase is the single StripByteCounts overwrite after the append. -/
theorem patchWriteback_sbc_only (f pixelBytes : List Nat) (psbc sbcDt : Nat) :
    patchWriteback f none 0 (some psbc) sbcDt none 0 1 pixelBytes
      = tagWrite (f ++ pixelBytes) psbc sbcDt pixelBytes.length := rfl

/-- Any bit depth other than 16 and 14 falls to the warning branch with a
16-bit encoding. -/
theorem encode_pixel_bytes_default (bits : Nat) (data : List Nat)
    (h16 : bits ≠ 16) (h14 : bits ≠ 14) :
    encode_pixel_bytes bits data = (encode16 data, true) := by
  unfold encode_pixel_bytes
  rw [if_neg h16, if_neg h14]

/-! ## Patch Writer read-back (C2) -/

/-- C2 (amended): after the write-back phase, the recorded positions read
back as the end-of-file offset at append time, the payload length and 1 —
except that a tag field declared SHORT receives only the low 16 bits of
its value, so its read-back is the value mod 65536. -/
theorem patch_writeback_readback
    (f pixelBytes : List Nat) (psot sotDt psbc sbcDt pcomp compDt compression : Nat)
    (hsot : psot + 4 ≤ f.length) (hsbc : psbc + 4 ≤ f.length)
    (hcomp : pcomp + 4 ≤ f.length)
    (hd1 : psot + 4 ≤ psbc ∨ psbc + 4 ≤ psot)
    (hd2 : psot + 4 ≤ pcomp ∨ pcomp + 4 ≤ psot)
    (hd3 : psbc + 4 ≤ pcomp ∨ pcomp + 4 ≤ psbc)
    (hflen : f.length < 4294967296) (hplen : pixelBytes.length < 4294967296)
    (hcompval : compression = 1 → readTag f pcomp compDt = 1) :
    readTag (patchWriteback f (some psot) sotDt (some psbc) sbcDt (some pcomp)
        compDt compression pixelBytes) psot sotDt
      = (if sotDt = 3 then f.length % 65536 else f.length) ∧
    readTag (patchWriteback f (some psot) sotDt (some psbc) sbcDt (some pcomp)
        compDt compression pixelBytes) psbc sbcDt
      = (if sbcDt = 3 then pixelBytes.length % 65536 else pixelBytes.length) ∧
    readTag (patchWriteback f (some psot) sotDt (some psbc) sbcDt (some pcomp)
        compDt compression pixelBytes) pcomp compDt = 1 := by
  have hq1 : psot + 4 ≤ (f ++ pixelBytes).length := by
    simp only [List.length_append]; omega
  have hlen2 : (tagWrite (f ++ pixelBytes) psot sotDt f.length).length
      = (f ++ pixelBytes).length := tagWrite_length _ _ _ _ hq1
  have hq2 : psbc + 4 ≤ (tagWrite (f ++ pixelBytes) psot sotDt f.length).length := by
    rw [hlen2]; simp only [List.length_append]; omega
  have hlen3 : (tagWrite (tagWrite (f ++ pixelBytes) psot sotDt f.length)
      psbc sbcDt pixelBytes.length).length = (f ++ pixelBytes).length := by
    rw [tagWrite_length _ _ _ _ hq2, hlen2]
  have hq3 : pcomp + 4 ≤ (tagWrite (tagWrite (f ++ pixelBytes) psot sotDt f.length)
      psbc sbcDt pixelBytes.length).length := by
    rw [hlen3]; simp only [List.length_append]; omega
  have hsotF3 : readTag (tagWrite (tagWrite (f ++ pixelBytes) psot sotDt f.length)
      psbc sbcDt pixelBytes.length) psot sotDt
      = (if sotDt = 3 then f.length % 65536 else f.length) := by
    rw [readTag_tagWrite_disjoint _ psbc sbcDt _ psot sotDt hq2 (by omega)]
    rw [readTag_tagWrite_same _ psot sotDt _ hq1]
    by_cases hdt : sotDt = 3
    · simp [hdt]
    · simp [hdt, Nat.mod_eq_of_lt hflen]
  have hsbcF3 : readTag (tagWrite (tagWrite (f ++ pixelBytes) psot sotDt f.length)
      psbc sbcDt pixelBytes.length) psbc sbcDt
      = (if sbcDt = 3 then pixelBytes.length % 65536 else pixelBytes.length) := by
    rw [readTag_tagWrite_same _ psbc sbcDt _ hq2]
    by_cases hdt : sbcDt = 3
    · simp [hdt]
    · simp [hdt, Nat.mod_eq_of_lt hplen]
  have hcompF3 : readTag (tagWrite (tagWrite (f ++ pixelBytes) psot sotDt f.length)
      psbc sbcDt pixelBytes.length) pcomp compDt = readTag f pcomp compDt := by
    rw [readTag_tagWrite_disjoint _ psbc sbcDt _ pcomp compDt hq2 (by omega)]
    rw [readTag_tagWrite_disjoint _ psot sotDt _ pcomp compDt hq1 (by omega)]
    exact readTag_append f pixelBytes pcomp compDt hcomp
  have hfinal : patchWriteback f (some psot) sotDt (some psbc) sbcDt (some pcomp)
        compDt compression pixelBytes
      = (if compression ≠ 1 then
          (if compDt = 3 then
            writeBytesAt (tagWrite (tagWrite (f ++ pixelBytes) psot sotDt f.length)
              psbc sbcDt pixelBytes.length) pcomp (le16 1)
          else
            writeBytesAt (tagWrite (tagWrite (f ++ pixelBytes) psot sotDt f.length)
              psbc sbcDt pixelBytes.length) pcomp (le32 1))
        else tagWrite (tagWrite (f ++ pixelBytes) psot sotDt f.length)
          psbc sbcDt pixelBytes.length) := rfl
  rw [hfinal]
  by_cases hc : compression = 1
  · rw [if_neg (by simp [hc])]
    exact ⟨hsotF3, hsbcF3, by rw [hcompF3]; exact hcompval hc⟩
  · rw [if_pos hc]
    by_cases hcdt : compDt = 3
    · rw [if_pos hcdt]
      refine ⟨?_, ?_, ?_⟩
      · rw [readTag_writeLe_disjoint _ _ pcomp psot sotDt (by simp [le16]) hq3 (by omega)]
        exact hsotF3
      · rw [readTag_writeLe_disjoint _ _ pcomp psbc sbcDt (by simp [le16]) hq3 (by omega)]
        exact hsbcF3
      · unfold readTag
        rw [if_pos hcdt]
        rw [readLe16_writeBytesAt_le16 _ pcomp 1 (by omega)]
    · rw [if_neg hcdt]
      refine ⟨?_, ?_, ?_⟩
      · rw [readTag_writeLe_disjoint _ _ pcomp psot sotDt (by simp [le32]) hq3 (by omega)]
        exact hsotF3
      · rw [readTag_writeLe_disjoint _ _ pcomp psbc sbcDt (by simp [le32]) hq3 (by omega)]
        exact hsbcF3
      · unfold readTag
        rw [if_neg hcdt]
        rw [readLe32_writeBytesAt_le32 _ pcomp 1 (by omega)]

/-- C2 witness: a concrete small patch, all three fields LONG, reading back
offset 32, payload length 2, compression 1. -/
theorem patch_writeback_readback_witness :
    readTag (patchWriteback (List.replicate 32 0) (some 10) 4 (some 16) 4 (some 22) 4
        6 [7, 8]) 10 4 = (if (4 : Nat) = 3 then 32 % 65536 else 32) ∧
    readTag (patchWriteback (List.replicate 32 0) (some 10) 4 (some 16) 4 (some 22) 4
        6 [7, 8]) 16 4 = (if (4 : Nat) = 3 then 2 % 65536 else 2) ∧
    readTag (patchWriteback (List.replicate 32 0) (some 10) 4 (some 16) 4 (some 22) 4
        6 [7, 8]) 22 4 = 1 := by
  have h := patch_writeback_readback (List.replicate 32 0) [7, 8] 10 4 16 4 22 4 6
    (by simp) (by simp) (by simp) (by omega) (by omega) (by omega)
    (by simp) (by simp) (by intro h6; cases h6)
  simpa using h

/-- C2 counterexample: with a StripOffsets entry declared SHORT and an
end-of-file offset of 70000, the read-back value is 4464 = 70000 mod 65536,
not the appended payload offset 70000 the claim states. -/
theorem strip_offsets_short_readback_truncated :
    readTag (patchWriteback (List.replicate 70000 0) (some 10) 3 (some 20) 4 (some 30) 3
        1 [5]) 10 3 = 4464 ∧
    (List.replicate (70000 : Nat) (0 : Nat)).length = 70000 ∧ (4464 : Nat) ≠ 70000 := by
  refine ⟨?_, List.length_replicate 70000 0, by omega⟩
  rw [patchWriteback_compression_one]
  have hq1 : 10 + 4 ≤ (List.replicate (70000 : Nat) (0 : Nat) ++ [5]).length := by
    rw [List.length_append, List.length_replicate]
    norm_num
  have hq2 : 20 + 4 ≤ (tagWrite (List.replicate 70000 0 ++ [5]) 10 3
      (List.replicate (70000 : Nat) (0 : Nat)).length).length := by
    rw [tagWrite_length _ _ _ _ hq1]
    rw [List.length_append, List.length_replicate]
    norm_num
  rw [readTag_tagWrite_disjoint _ 20 4 _ 10 3 hq2 (by omega)]
  rw [readTag_tagWrite_same _ 10 3 _ hq1]
  rw [if_pos rfl, List.length_replicate]

/-! ## Codec selection lemmas (C9) -/

theorem encode16_length (data : List Nat) : (encode16 data).length = 2 * data.length := by
  induction data with
  | nil => simp [encode16]
  | cons a l ih =>
      simp only [encode16, List.flatMap_cons, List.length_append, List.length_cons,
        List.length_nil, le16] at ih ⊢
      omega

theorem flatten_length_uniform (grid : List (List Nat)) (w : Nat)
    (hcols : ∀ r ∈ grid, r.length = w) : grid.flatten.length = grid.length * w := by
  induction grid with
  | nil => simp
  | cons r rs ih =>
      simp only [List.flatten_cons, List.length_append, List.length_cons]
      rw [hcols r (by simp), ih (fun x hx => hcols x (by simp [hx]))]
      ring

/-- C9 (amended): a bit depth outside {14, 16} triggers the warning and a
16-bit encoding whose length is width x height x 2; the value written back
into StripByteCounts is that length, truncated to 16 bits when the field is
declared SHORT. -/
theorem unsupported_depth_16bit_patch
    (bits w h : Nat) (grid : List (List Nat)) (f : List Nat) (psbc sbcDt : Nat)
    (hb14 : bits ≠ 14) (hb16 : bits ≠ 16)
    (hrows : grid.length = h) (hcols : ∀ r ∈ grid, r.length = w)
    (hrange : psbc + 4 ≤ f.length) (hfit : h * w * 2 < 4294967296) :
    (encode_pixel_bytes bits grid.flatten).2 = true ∧
    (encode_pixel_bytes bits grid.flatten).1.length = h * w * 2 ∧
    readTag (patchWriteback f none 0 (some psbc) sbcDt none 0 1
        (encode_pixel_bytes bits grid.flatten).1) psbc sbcDt
      = (if sbcDt = 3 then (h * w * 2) % 65536 else h * w * 2) := by
  have henc : encode_pixel_bytes bits grid.flatten = (encode16 grid.flatten, true) :=
    encode_pixel_bytes_default bits grid.flatten hb16 hb14
  have hlen : (encode16 grid.flatten).length = h * w * 2 := by
    rw [encode16_length, flatten_length_uniform grid w hcols, hrows]
    ring
  refine ⟨by rw [henc], by rw [henc]; exact hlen, ?_⟩
  rw [henc]
  rw [patchWriteback_sbc_only]
  have hq : psbc + 4 ≤ (f ++ encode16 grid.flatten).length := by
    simp only [List.length_append]
    omega
  rw [readTag_tagWrite_same _ psbc sbcDt _ hq]
  rw [hlen]
  by_cases hdt : sbcDt = 3
  · simp [hdt]
  · simp [hdt, Nat.mod_eq_of_lt hfit]

/-- C9 witness: depth 10 on a 2x2 grid warns, encodes 8 bytes and writes
back 8. -/
theorem unsupported_depth_16bit_patch_witness :
    (encode_pixel_bytes 10 ([[1, 2], [3, 4]] : List (List Nat)).flatten).2 = true ∧
    (encode_pixel_bytes 10 ([[1, 2], [3, 4]] : List (List Nat)).flatten).1.length
      = 2 * 2 * 2 ∧
    readTag (patchWriteback (List.replicate 12 0) none 0 (some 4) 4 none 0 1
        (encode_pixel_bytes 10 ([[1, 2], [3, 4]] : List (List Nat)).flatten).1) 4 4
      = (if (4 : Nat) = 3 then (2 * 2 * 2) % 65536 else 2 * 2 * 2) :=
  unsupported_depth_16bit_patch 10 2 2 [[1, 2], [3, 4]] (List.replicate 12 0) 4 4
    (by decide) (by decide) rfl (by decide) (by decide) (by decide)

/-- C9 counterexample: a 200 x 200 image patched into an IFD whose
StripByteCounts entry is declared SHORT reads back 14464 = 80000 mod 65536,
not width x height x 2 = 80000. -/
theorem strip_byte_counts_short_truncated :
    readTag (patchWriteback (List.replicate 12 0) none 0 (some 4) 3 none 0 1
        (encode_pixel_bytes 10 (List.replicate 40000 0)).1) 4 3 = 14464 ∧
    (14464 : Nat) ≠ 200 * 200 * 2 := by
  refine ⟨?_, by omega⟩
  rw [encode_pixel_bytes_default 10 (List.replicate 40000 0) (by omega) (by omega)]
  have hlen : (encode16 (List.replicate (40000 : Nat) (0 : Nat))).length = 80000 := by
    rw [encode16_length, List.length_replicate]
  rw [patchWriteback_sbc_only]
  have hq : 4 + 4 ≤ (List.replicate (12 : Nat) (0 : Nat)
      ++ encode16 (List.replicate 40000 0)).length := by
    rw [List.length_append, List.length_replicate, hlen]
    norm_num
  rw [readTag_tagWrite_same _ 4 3 _ hq]
  rw [if_pos rfl, hlen]

/-! ## Raw-IFD heuristic (C4) -/

/-- C4 (amended): with all three tags present, the main IFD is classified
raw iff SamplesPerPixel = 1, BitsPerSample lies in [12, 16], the declared
byte count is non-zero, and it is at least 80% of the size the code
expects: size * 2 for 16-bit and size * 14 / 8 for every other depth in
range — not the theoretical size of the actual bit depth. -/
theorem is_raw_data_iff (ns b s size : Nat) :
    is_raw_data (some ns) (some b) (some s) size = true ↔
      (ns = 1 ∧ 12 ≤ b ∧ b ≤ 16 ∧ 0 < s ∧ 5 * s ≥ 4 * expected_raw_bytes b size) := by
  by_cases hcond : (some ns : Option Nat) = some 1 ∧ b ≠ 0 ∧ 12 ≤ b ∧ b ≤ 16
  · have hns : ns = 1 := by
      have := hcond.1
      simpa using this
    simp only [is_raw_data, if_pos hcond, decide_eq_true_eq]
    constructor
    · rintro ⟨hs, hge⟩
      exact ⟨hns, hcond.2.2.1, hcond.2.2.2, by omega, hge⟩
    · rintro ⟨h1, h12, h16, hs, hge⟩
      exact ⟨by omega, hge⟩
  · simp only [is_raw_data, if_neg hcond, Bool.false_eq_true, false_iff]
    rintro ⟨h1, h12, h16, hs, hge⟩
    exact hcond ⟨by simp [h1], by omega, h12, h16⟩

/-- C4 counterexample: bit depth 12 with 8 pixels and a declared byte count
of 10.  The theoretical size for 12-bit is 12 bytes, so the check of the claim
accepts (10 is at least 80% of 12), but the code compares against the
14-bit size 14 and rejects (10 is below 11.2). -/
theorem main_raw_check_depth_counterexample :
    is_raw_data (some 1) (some 12) (some 10) 8 = false ∧
    claimed_raw_check 1 12 10 8 = true := by
  constructor
  · decide
  · decide

/-! ## SubIFD validation (C5) -/

theorem scanStripFlags_spec : ∀ (xs : List Nat) (so sbc : Bool),
    scanStripFlags xs so sbc = (so || decide (273 ∈ xs), sbc || decide (279 ∈ xs))
  | [], so, sbc => by simp [scanStripFlags]
  | t :: rest, so, sbc => by
      unfold scanStripFlags
      by_cases h1 : t = 273
      · subst h1
        rw [if_pos rfl]
        rw [scanStripFlags_spec rest true sbc]
        simp [List.mem_cons]
      · rw [if_neg h1]
        by_cases h2 : t = 279
        · subst h2
          rw [if_pos rfl]
          rw [scanStripFlags_spec rest so true]
          simp [List.mem_cons, Ne.symm h1]
        · rw [if_neg h2]
          rw [scanStripFlags_spec rest so sbc]
          simp [List.mem_cons, Ne.symm h1, Ne.symm h2]

/-- C5 (amended): a SubIFD candidate is selected iff its entry count lies
in [1, 999] and both StripOffsets and StripByteCounts occur among the
first min(entryCount, 100) entries — entries beyond the first 100 are
never examined. -/
theorem subifd_check_iff (n : Nat) (tags : List Nat) :
    subifd_check n tags = true ↔
      0 < n ∧ n < 1000 ∧ 273 ∈ tags.take (min n 100) ∧ 279 ∈ tags.take (min n 100) := by
  unfold subifd_check
  by_cases hn : 0 < n ∧ n < 1000
  · rw [if_pos hn]
    rw [scanStripFlags_spec]
    simp [hn.1, hn.2]
  · rw [if_neg hn]
    simp only [Bool.false_eq_true, false_iff]
    rintro ⟨h1, h2, -, -⟩
    exact hn ⟨h1, h2⟩

/-- C5 counterexample: a valid SubIFD with 102 entries whose StripOffsets
and StripByteCounts sit at positions 100 and 101 is rejected by the code,
although the condition of the claim (count in [1,999], both tags present)
holds. -/
theorem subifd_check_late_tags_counterexample :
    subifd_check 102 (List.replicate 100 0 ++ [273, 279]) = false ∧
      0 < 102 ∧ 102 < 1000 ∧
      273 ∈ (List.replicate 100 0 ++ [273, 279] : List Nat) ∧
      279 ∈ (List.replicate 100 0 ++ [273, 279] : List Nat) := by
  refine ⟨by decide, by omega, by omega, by decide, by decide⟩

/-! ## Locator fallback (C6) -/

/-- C6 (amended): when the SubIFD check fails, the raw heuristic fails and
the next-IFD pointer is non-zero, the locator does not follow the chain and
selects the existing main IFD as the patch target; synthesis is reached
only with a zero next-IFD pointer. -/
theorem locator_nextifd_targets_main
    (subifd : Option (Nat × List Nat)) (samples bits stripBytes : Option Nat)
    (size nextIFD : Nat)
    (hsub : ∀ n tags, subifd = some (n, tags) → subifd_check n tags = false)
    (hraw : is_raw_data samples bits stripBytes size = false)
    (hnext : nextIFD ≠ 0) :
    locate_target subifd samples bits stripBytes size nextIFD
      = IFDTarget.mainFallback := by
  have hmain : locate_main samples bits stripBytes size nextIFD
      = IFDTarget.mainFallback := by
    unfold locate_main
    rw [hraw]
    simp [hnext]
  cases subifd with
  | none => simpa [locate_target] using hmain
  | some c =>
      obtain ⟨n, tags⟩ := c
      have hfalse := hsub n tags rfl
      simp [locate_target, hfalse, hmain]

/-- C6 witness: a concrete container where all three conditions hold and
the main IFD is the chosen target. -/
theorem locator_nextifd_targets_main_witness :
    locate_target (some (5, [256, 257])) (some 3) (some 16) (some 10) 1000 64
      = IFDTarget.mainFallback :=
  locator_nextifd_targets_main (some (5, [256, 257])) (some 3) (some 16) (some 10)
    1000 64 (by intro n tags h; cases h; decide) (by decide) (by decide)

/-- C6 counterexample: at that same container the locator result is the
main IFD, not the synthesis fallback the claim states. -/
theorem locator_nextifd_not_synthesize :
    locate_target none (some 3) (some 16) (some 10) 1000 64 = IFDTarget.mainFallback ∧
    IFDTarget.mainFallback ≠ IFDTarget.synthesize := by
  refine ⟨by decide, by decide⟩

/-! ## Synthesized IFD layout (C7) -/

/-- C7: the synthesized SubIFD declares 9 entries but occupies 138 bytes
instead of the 2 + 9 * 12 + 4 = 114 the TIFF layout requires, and the slot
where the layout places the fourth entry holds the ASCII padding garbage
12336 instead of the Compression tag 259: the pad-to-4-bytes write emits
the eight characters of the escaped literal instead of two zero bytes. -/
theorem synthIFD_breaks_layout :
    (synthIFD 2 2 1000 8 []).length = 138 ∧
    tiff_ifd_size 9 = 114 ∧
    readLe16 (synthIFD 2 2 1000 8 []) 0 = 9 ∧
    readLe16 (synthIFD 2 2 1000 8 []) (2 + 3 * 12) = 12336 ∧
    (138 : Nat) ≠ 114 ∧ (12336 : Nat) ≠ 259 := by
  refine ⟨by decide, by decide, by decide, by decide, by omega, by omega⟩

/-! ## Dimension mismatch (C8) -/

/-- C8: when the TIFF shape differs from the declared raw
shape, tiff_to_dng fails with the dimension-mismatch error and the output
file still has its prior state: the check precedes the template copy and
the pixel patch. -/
theorem tiff_to_dng_dimension_mismatch (ts os : Shape) (out0 : Option (List Nat))
    (patched : List Nat) (h : ts ≠ os) :
    (tiff_to_dng ts os out0 patched).1 = Except.error "dimension mismatch" ∧
    (tiff_to_dng ts os out0 patched).2 = out0 := by
  constructor
  · simp [tiff_to_dng, h]
  · simp [tiff_to_dng, h]

/-- C8 witness: scenario D, a 100 x 50 buffer against a 100 x 60
container. -/
theorem tiff_to_dng_dimension_mismatch_witness :
    (tiff_to_dng (Shape.mk 50 100) (Shape.mk 60 100) none [1, 2]).1
      = Except.error "dimension mismatch" ∧
    (tiff_to_dng (Shape.mk 50 100) (Shape.mk 60 100) none [1, 2]).2 = none :=
  tiff_to_dng_dimension_mismatch (Shape.mk 50 100) (Shape.mk 60 100) none [1, 2]
    (by decide)

/-! ## Non-termination of the mutual recursion (C10) -/

/-- C10: on a container with no SubIFD candidate, a main IFD that fails the
raw heuristic, a zero next-IFD pointer and SamplesPerPixel different from
3, modify_dng_pixels and create_uncompressed_dng_from_rawpy call each other
forever: no amount of fuel suffices. -/
theorem patch_recursion_diverges (orig : ContainerInfo) (size : Nat)
    (hsub : orig.subifd = none)
    (hraw : is_raw_data orig.samples orig.bits orig.stripBytes size = false)
    (hnext : orig.nextIFD = 0)
    (hsam : orig.samples ≠ some 3) :
    ∀ fuel, modify_run orig size fuel = PatchOutcome.outOfFuel ∧
      create_run orig size fuel = PatchOutcome.outOfFuel := by
  have hloc : locate_target orig.subifd orig.samples orig.bits orig.stripBytes
      size orig.nextIFD = IFDTarget.synthesize := by
    rw [hsub]
    unfold locate_target locate_main
    rw [hraw]
    simp [hnext]
  intro fuel
  induction fuel with
  | zero => exact ⟨rfl, rfl⟩
  | succ n ih =>
      constructor
      · rw [modify_run, hloc]
        exact ih.2
      · rw [create_run, if_neg hsam]
        exact ih.1

/-- C10 witness: a concrete preview-less container exhausts any concrete
amount of fuel. -/
theorem patch_recursion_diverges_witness :
    modify_run (ContainerInfo.mk none (some 2) (some 16) (some 0) 0) 4 5
      = PatchOutcome.outOfFuel :=
  (patch_recursion_diverges (ContainerInfo.mk none (some 2) (some 16) (some 0) 0) 4
    rfl (by decide) rfl (by decide) 5).1

end DngEditor
